import Mathlib

/-!
Shallow embedding of the endpoint lifecycle and routing engine of the
namada-rpc-proxy repository, together with theorems settling the frozen
claims about it.

The embedding covers:
* the health monitor pool recomputation (HealthMonitor.updateHealthStatus);
* the load balancer state: circuit breakers (updateCircuitBreaker,
  isCircuitBreakerOpen, resetCircuitBreaker), weight records
  (updateRpcMetrics, updateRpcWeights), pool delivery (updateHealthyRpcs),
  request retry loop (routeRequest / selectRpc);
* the registry manager fetch loop (fetchRegistry, parseRpcEntries,
  hasRegistryChanged).

Machine numbers: JavaScript numbers are modelled as Rat (for response
times, weights, random draws) and Int (for block heights and clock
timestamps); counters are Nat.  JavaScript Map objects are modelled as
association lists with Map.set insertion order semantics (replace in
place when the key exists, append otherwise).  Network effects are
modelled by oracle parameters: one fetch/forward outcome per attempt
index.
-/

namespace NamadaProxy

/-- Falsy-default helper: the JavaScript idiom x || d for an optional
numeric x, where both undefined and 0 select the default d. -/
def jsOr (x : Option ℚ) (d : ℚ) : ℚ :=
  match x with
  | none => d
  | some v => if v = 0 then d else v

/-! ## Health monitor (HealthMonitor.updateHealthStatus)

An endpoint record as read by updateHealthStatus.  Fields of the source
record that updateHealthStatus never reads (name, lastCheck, syncStatus,
responseTime, errorCount, lastError, consecutiveFailures) are omitted. -/

structure HRpc where
  url : String
  healthy : Bool
  isArchive : Bool
  blockHeight : Option ℤ
  deriving Repr, DecidableEq

/-- The monitor state fields assigned by updateHealthStatus. -/
structure HMState where
  healthyRpcs : List HRpc
  unhealthyRpcs : List HRpc
  archiveRpcs : List HRpc
  lastMedianHeight : ℤ
  deriving Repr, DecidableEq

/-- Events emitted by updateHealthStatus. -/
inductive HMEvent where
  | healthStatusChanged (healthy unhealthy archive : List HRpc)
  | allRpcsUnhealthy
  deriving Repr, DecidableEq

/-- HealthMonitor.updateHealthStatus: recompute the pools from the
tracked endpoint records, update the stored state, and emit events.
syncThreshold is config.healthCheck.syncThreshold (default 50).
The JavaScript truthiness test (not rpc.blockHeight) excludes both a
null and a zero height from the synced filter; the median, by contrast,
is computed over heights that are merely non-null. -/
def updateHealthStatus (syncThreshold : ℕ) (allRpcs : List HRpc)
    (st : HMState) : HMState × List HMEvent :=
  let healthyRpcs := allRpcs.filter (·.healthy)
  let unhealthyRpcs := allRpcs.filter (fun r => !r.healthy)
  let blockHeights := (healthyRpcs.filterMap (·.blockHeight)).insertionSort (· ≤ ·)
  let medianHeight := if blockHeights.isEmpty then 0
    else blockHeights.getD (blockHeights.length / 2) 0
  let syncedRpcs := healthyRpcs.filter (fun r =>
    match r.blockHeight with
    | none => false
    | some h =>
      if h = 0 then false
      else if blockHeights.isEmpty then false
      else decide ((h - medianHeight).natAbs ≤ syncThreshold))
  let syncedArchiveRpcs := syncedRpcs.filter (·.isArchive)
  let statusChanged :=
    st.healthyRpcs.length != syncedRpcs.length ||
    st.unhealthyRpcs.length != unhealthyRpcs.length ||
    st.archiveRpcs.length != syncedArchiveRpcs.length ||
    st.lastMedianHeight != medianHeight
  let st1 : HMState :=
    { healthyRpcs := syncedRpcs,
      unhealthyRpcs := unhealthyRpcs,
      archiveRpcs := syncedArchiveRpcs,
      lastMedianHeight := medianHeight }
  let events : List HMEvent :=
    if statusChanged then
      HMEvent.healthStatusChanged syncedRpcs unhealthyRpcs syncedArchiveRpcs ::
        (if syncedRpcs.length = 0 && allRpcs.length > 0 then
          [HMEvent.allRpcsUnhealthy] else [])
    else []
  (st1, events)

/-! ## Load balancer state (LoadBalancer)

An endpoint as seen by the load balancer (an element of the healthy or
archive pool).  Fields the modelled functions never read are omitted. -/

structure Rpc where
  url : String
  name : String
  responseTime : Option ℚ
  isArchive : Bool
  deriving Repr, DecidableEq

/-- Per-endpoint weight record (LoadBalancer.rpcWeights values). -/
structure WeightInfo where
  weight : ℚ
  totalRequests : ℕ
  successfulRequests : ℕ
  averageResponseTime : ℚ
  lastUpdated : ℤ
  deriving Repr, DecidableEq

/-- Circuit breaker state tag. -/
inductive BState where
  | closed
  | open
  | halfOpen
  deriving Repr, DecidableEq

/-- Per-endpoint circuit breaker record (LoadBalancer.circuitBreakers
values). -/
structure Breaker where
  state : BState
  failureCount : ℕ
  lastFailureTime : Option ℤ
  nextRetryTime : Option ℤ
  deriving Repr, DecidableEq

/-- JavaScript Map.set: replace the value in place when the key is
present, append otherwise. -/
def setEntry {α : Type} : List (String × α) → String → α → List (String × α)
  | [], k, v => [(k, v)]
  | (k0, v0) :: rest, k, v =>
    if k0 = k then (k0, v) :: rest else (k0, v0) :: setEntry rest k v

/-- Mutable fields of the LoadBalancer instance. -/
structure LBState where
  healthyRpcs : List Rpc
  archiveRpcs : List Rpc
  currentIndex : ℕ
  rpcWeights : List (String × WeightInfo)
  circuitBreakers : List (String × Breaker)
  deriving Repr, DecidableEq

/-- Lookup of a circuit breaker record by URL. -/
def getBreaker (st : LBState) (url : String) : Option Breaker :=
  st.circuitBreakers.lookup url

/-- Lookup of a weight record by URL. -/
def getWeight (st : LBState) (url : String) : Option WeightInfo :=
  st.rpcWeights.lookup url

/-- The record written by resetCircuitBreaker and by the get-or-create
initialisation in updateCircuitBreaker. -/
def freshBreaker : Breaker :=
  { state := BState.closed, failureCount := 0,
    lastFailureTime := none, nextRetryTime := none }

/-- LoadBalancer.resetCircuitBreaker: close an existing breaker record
(no-op when the URL has no record). -/
def resetCircuitBreaker (st : LBState) (url : String) : LBState :=
  match st.circuitBreakers.lookup url with
  | none => st
  | some _ =>
    { st with circuitBreakers := setEntry st.circuitBreakers url freshBreaker }

/-- LoadBalancer.updateCircuitBreaker: get-or-create the record, then on
success reset it; on failure bump the counter and open the breaker when
the count reaches 3 while the state is closed (retry deadline
now + 30000 ms). -/
def updateCircuitBreaker (st : LBState) (url : String) (success : Bool)
    (now : ℤ) : LBState :=
  let st :=
    if (st.circuitBreakers.lookup url).isSome then st
    else { st with circuitBreakers := setEntry st.circuitBreakers url freshBreaker }
  if success then resetCircuitBreaker st url
  else
    match st.circuitBreakers.lookup url with
    | none => st
    | some b =>
      let b := { b with failureCount := b.failureCount + 1,
                        lastFailureTime := some now }
      let b :=
        if b.failureCount ≥ 3 ∧ b.state = BState.closed then
          { b with state := BState.open, nextRetryTime := some (now + 30000) }
        else b
      { st with circuitBreakers := setEntry st.circuitBreakers url b }

/-- LoadBalancer.isCircuitBreakerOpen: closed or absent means not open; an
open breaker whose retry deadline has been reached flips to half-open and
reports not open; half-open reports not open.  The JavaScript comparison
now >= null coerces a null deadline to 0, modelled with getD 0. -/
def isCircuitBreakerOpen (st : LBState) (url : String) (now : ℤ) :
    Bool × LBState :=
  match st.circuitBreakers.lookup url with
  | none => (false, st)
  | some b =>
    if b.state = BState.closed then (false, st)
    else if b.state = BState.open then
      if now ≥ b.nextRetryTime.getD 0 then
        let cbs := setEntry st.circuitBreakers url { b with state := BState.halfOpen }
        (false, { st with circuitBreakers := cbs })
      else (true, st)
    else (false, st)

/-- Pure per-record transition of updateCircuitBreaker, used to state the
circuit-breaker claims. -/
def cbStep (b : Breaker) (success : Bool) (now : ℤ) : Breaker :=
  if success then freshBreaker
  else
    let b := { b with failureCount := b.failureCount + 1,
                      lastFailureTime := some now }
    if b.failureCount ≥ 3 ∧ b.state = BState.closed then
      { b with state := BState.open, nextRetryTime := some (now + 30000) }
    else b

/-- LoadBalancer.updateRpcMetrics: get-or-create the weight record (weight
1.0, average = this outcome response time), bump the total counter, and on
success recompute the exponential moving average and the clamped weight. -/
def updateRpcMetrics (st : LBState) (url : String) (success : Bool)
    (responseTime : ℚ) (now : ℤ) : LBState :=
  let st :=
    if (st.rpcWeights.lookup url).isSome then st
    else
      let w0 : WeightInfo :=
        { weight := 1, totalRequests := 0, successfulRequests := 0,
          averageResponseTime := responseTime, lastUpdated := now }
      { st with rpcWeights := setEntry st.rpcWeights url w0 }
  match st.rpcWeights.lookup url with
  | none => st
  | some m =>
    let m := { m with totalRequests := m.totalRequests + 1 }
    let m :=
      if success then
        let avg := m.averageResponseTime * 0.8 + responseTime * 0.2
        { m with successfulRequests := m.successfulRequests + 1,
                 averageResponseTime := avg,
                 weight := max 0.1 (min 5.0 (1000 / max avg 100)) }
      else m
    { st with rpcWeights := setEntry st.rpcWeights url { m with lastUpdated := now } }

/-- Pure per-record transition of updateRpcMetrics, used to state the
weight claims. -/
def metricsStep (m : WeightInfo) (success : Bool) (responseTime : ℚ)
    (now : ℤ) : WeightInfo :=
  let m := { m with totalRequests := m.totalRequests + 1 }
  let m :=
    if success then
      let avg := m.averageResponseTime * 0.8 + responseTime * 0.2
      { m with successfulRequests := m.successfulRequests + 1,
               averageResponseTime := avg,
               weight := max 0.1 (min 5.0 (1000 / max avg 100)) }
    else m
  { m with lastUpdated := now }

/-- The weight recomputation as a function of the average response time. -/
def weightOf (avg : ℚ) : ℚ := max 0.1 (min 5.0 (1000 / max avg 100))

/-- LoadBalancer.updateRpcWeights: create missing weight records (weight
1.0, average defaulting to 1000 under JavaScript truthiness) and refresh
existing ones from the reported response time. -/
def updateRpcWeights (st : LBState) (rpcs : List Rpc) (now : ℤ) : LBState :=
  rpcs.foldl (fun st rpc =>
    match st.rpcWeights.lookup rpc.url with
    | none =>
      let w0 : WeightInfo :=
        { weight := 1, totalRequests := 0, successfulRequests := 0,
          averageResponseTime := jsOr rpc.responseTime 1000, lastUpdated := now }
      { st with rpcWeights := setEntry st.rpcWeights rpc.url w0 }
    | some w =>
      let responseTime := jsOr rpc.responseTime w.averageResponseTime
      let w1 : WeightInfo :=
        { w with weight := max 0.1 (min 5.0 (1000 / max responseTime 100)),
                 averageResponseTime := responseTime,
                 lastUpdated := now }
      { st with rpcWeights := setEntry st.rpcWeights rpc.url w1 }) st

/-- LoadBalancer.updateHealthyRpcs: install the delivered pools, reset the
round-robin index when the healthy count changed, refresh weights, and
reset the circuit breaker of every delivered healthy endpoint that has a
breaker record. -/
def updateHealthyRpcs (st : LBState) (healthy archive : List Rpc)
    (now : ℤ) : LBState :=
  let prevHealthyCount := st.healthyRpcs.length
  let st := { st with healthyRpcs := healthy, archiveRpcs := archive }
  let st :=
    if st.healthyRpcs.length ≠ prevHealthyCount then
      { st with currentIndex := 0 }
    else st
  let st := updateRpcWeights st healthy now
  healthy.foldl (fun st rpc =>
    if (st.circuitBreakers.lookup rpc.url).isSome then
      resetCircuitBreaker st rpc.url
    else st) st

/-! ## Request routing (LoadBalancer.selectRpc / routeRequest) -/

/-- The breaker filter of selectRpc: availableRpcs = rpcs.filter of not
isCircuitBreakerOpen.  Array.filter evaluates its predicate left to
right, and each isCircuitBreakerOpen call may flip an expired open
breaker to half-open, so the state is threaded through. -/
def filterAvailable (st : LBState) (now : ℤ) :
    List Rpc → List Rpc × LBState
  | [] => ([], st)
  | r :: rs =>
    let p := isCircuitBreakerOpen st r.url now
    let rest := filterAvailable p.2 now rs
    (if p.1 then rest.1 else r :: rest.1, rest.2)

/-- The weighted walk of selectRpc: subtract each weight from the random
draw and return the first endpoint at which the draw is ≤ 0 (none when
the list is exhausted, triggering the round-robin fallback). -/
def weightedWalk (st : LBState) : List Rpc → ℚ → Option Rpc
  | [], _ => none
  | r :: rs, random =>
    let w := ((st.rpcWeights.lookup r.url).map (·.weight)).getD 1
    if random - w ≤ 0 then some r else weightedWalk st rs (random - w)

/-- LoadBalancer.selectRpc.  A singleton pool short-circuits; a retry
(attemptNumber > 0) deterministically indexes from the cursor; the first
attempt filters out open breakers and draws by weight, falling back to
round-robin (advancing the cursor) when every breaker is open.  rand
models Math.random(), a draw in [0, 1). -/
def selectRpc (st : LBState) (rpcs : List Rpc) (attemptNumber : ℕ)
    (rand : ℚ) (now : ℤ) : Option Rpc × LBState :=
  match rpcs with
  | [] => (none, st)
  | r0 :: _ =>
    if rpcs.length = 1 then (some r0, st)
    else if attemptNumber > 0 then
      (rpcs.get? ((st.currentIndex + attemptNumber) % rpcs.length), st)
    else
      let fa := filterAvailable st now rpcs
      let availableRpcs := fa.1
      let st1 := fa.2
      if availableRpcs.isEmpty then
        let sel := rpcs.get? (st1.currentIndex % rpcs.length)
        (sel, { st1 with currentIndex := (st1.currentIndex + 1) % rpcs.length })
      else
        let totalWeight := availableRpcs.foldl
          (fun sum r => sum + ((st1.rpcWeights.lookup r.url).map (·.weight)).getD 1) 0
        let random := rand * totalWeight
        match weightedWalk st1 availableRpcs random with
        | some r => (some r, st1)
        | none =>
          let sel := availableRpcs.get? (st1.currentIndex % availableRpcs.length)
          (sel, { st1 with currentIndex := (st1.currentIndex + 1) % availableRpcs.length })

/-- One forward outcome, supplied by the oracle: the result of
forwardRequest for the attempt with the given loop counter. -/
inductive Outcome where
  | success (responseTime : ℚ)
  | failure (msg : String) (responseTime : Option ℚ)
  deriving Repr, DecidableEq

/-- One loop iteration of routeRequest, for the request trace: a
successful forward, a failed forward (recording the backoff slept after
it, if any), or a skip of an endpoint whose breaker was open. -/
inductive It where
  | forwardOk (url : String) (responseTime : ℚ)
  | forwardFail (url : String) (msg : String) (slept : Option ℚ)
  | skip (url : String)
  deriving Repr, DecidableEq

/-- The endpoint URL an iteration touched. -/
def itUrl : It → String
  | It.forwardOk u _ => u
  | It.forwardFail u _ _ => u
  | It.skip u => u

/-- Whether an iteration is a successful forward. -/
def isFwdOk : It → Bool
  | It.forwardOk _ _ => true
  | _ => false

/-- Value returned by a successful routeRequest (the selectedRpc part
relevant here). -/
structure RouteSuccess where
  url : String
  responseTime : ℚ
  deriving Repr, DecidableEq

/-- Errors thrown by routeRequest: the empty-pool error, and the
all-attempts-failed error carrying the message of the last underlying
error (none standing for the JavaScript undefined lastError, printed as
Unknown error). -/
inductive RouteError where
  | noUpstreams
  | allFailed (attempts : ℕ) (lastError : Option String)
  | internalError
  deriving Repr, DecidableEq

/-- The lastError threading of the routeRequest loop: the message of the
last failed forward in the trace, defaulting to the incoming value. -/
def lastErrAfter : List It → Option String → Option String
  | [], d => d
  | it :: tr, d =>
    lastErrAfter tr (match it with
      | It.forwardFail _ m _ => some m
      | _ => d)

/-- The while loop of routeRequest.  fuel = maxAttempts - attempts
iterations remain; each iteration selects an endpoint, skips it if its
breaker reports open, otherwise forwards (outcome given by the oracle,
indexed by the loop counter), updating metrics and breakers, and sleeps
retryDelay * attempts (after the increment) when more attempts remain. -/
def routeGo (P : List Rpc) (outcomes : ℕ → Outcome) (rand : ℚ) (now : ℤ)
    (retryDelay : ℚ) (maxAttempts : ℕ) :
    ℕ → ℕ → Option String → LBState →
    List It × Except RouteError RouteSuccess × LBState
  | attempts, 0, lastErr, st =>
    ([], Except.error (RouteError.allFailed attempts lastErr), st)
  | attempts, fuel + 1, lastErr, st =>
    match selectRpc st P attempts rand now with
    | (none, st1) => ([], Except.error RouteError.internalError, st1)
    | (some r, st1) =>
      let chk := isCircuitBreakerOpen st1 r.url now
      if chk.1 then
        let rest := routeGo P outcomes rand now retryDelay maxAttempts
          (attempts + 1) fuel lastErr chk.2
        (It.skip r.url :: rest.1, rest.2.1, rest.2.2)
      else
        match outcomes attempts with
        | Outcome.success rt =>
          let st3 := updateRpcMetrics chk.2 r.url true rt now
          ([It.forwardOk r.url rt], Except.ok ⟨r.url, rt⟩, st3)
        | Outcome.failure msg ort =>
          let st3 := updateRpcMetrics chk.2 r.url false (ort.getD 0) now
          let st4 := updateCircuitBreaker st3 r.url false now
          let slept := if attempts + 1 < maxAttempts then
              some (retryDelay * (attempts + 1)) else none
          let rest := routeGo P outcomes rand now retryDelay maxAttempts
            (attempts + 1) fuel (some msg) st4
          (It.forwardFail r.url msg slept :: rest.1, rest.2.1, rest.2.2)

/-- LoadBalancer.routeRequest over the already-chosen target pool P
(archiveRpcs for an archive request, healthyRpcs otherwise): throw the
no-upstreams error on an empty pool, else run up to
min maxRetries P.length loop iterations. -/
def routeRequest (st : LBState) (P : List Rpc) (maxRetries : ℕ)
    (outcomes : ℕ → Outcome) (rand : ℚ) (now : ℤ) (retryDelay : ℚ) :
    List It × Except RouteError RouteSuccess × LBState :=
  if P.isEmpty then ([], Except.error RouteError.noUpstreams, st)
  else routeGo P outcomes rand now retryDelay (min maxRetries P.length)
    0 (min maxRetries P.length) none st

/-! ## Registry manager (RegistryManager.fetchRegistry) -/

/-- A registry entry after JSON field coalescing: rpcAddress is the first
present of the keys RPC Address, rpc_address, rpc, url; teamName the
first present of Team or Contributor Name, team_name, team, name. -/
structure RegistryEntry where
  rpcAddress : Option String
  teamName : Option String
  deriving Repr, DecidableEq

/-- A parsed registry endpoint. -/
structure ParsedRpc where
  url : String
  name : String
  deriving Repr, DecidableEq

/-- RegistryManager.isValidUrl, abstracting the WHATWG URL parse: the
protocol must be http or https.  (The exact URL grammar is irrelevant to
the claims settled here; the prefix test is computed on the character
list so that concrete runs reduce.) -/
def isValidUrl (s : String) : Bool :=
  ("http://").data.isPrefixOf s.data || ("https://").data.isPrefixOf s.data

/-- RegistryManager.normalizeUrl: strip one trailing slash (computed on
the character list so that concrete runs reduce). -/
def normalizeUrl (s : String) : String :=
  if s.data.getLast? = some (Char.ofNat 47) then String.mk s.data.dropLast else s

/-- RegistryManager.parseRpcEntries: keep entries with a present, valid
URL; normalize it; default the contributor name to Unknown (JavaScript
truthiness: an empty name also defaults). -/
def parseRpcEntries (l : List RegistryEntry) : List ParsedRpc :=
  l.filterMap (fun e =>
    match e.rpcAddress with
    | none => none
    | some addr =>
      if addr = "" then none
      else if isValidUrl addr then
        some { url := normalizeUrl addr,
               name := match e.teamName with
                 | none => "Unknown"
                 | some n => if n = "" then "Unknown" else n }
      else none)

/-- RegistryManager.hasRegistryChanged: true iff the lengths differ or
some URL is in one list of entries but not the other.  (The source
iterates two Sets of URLs; membership tests over the underlying lists
give the same boolean.) -/
def hasRegistryChanged (currentRpcs newRpcs : List ParsedRpc) : Bool :=
  if currentRpcs.length ≠ newRpcs.length then true
  else
    let currentUrls := currentRpcs.map (·.url)
    let newUrls := newRpcs.map (·.url)
    newUrls.any (fun u => !currentUrls.contains u) ||
      currentUrls.any (fun u => !newUrls.contains u)

/-- What one registry fetch attempt yielded: a transport or HTTP or JSON
parse error (axios threw), a 2xx body that is not an array, or an array
of entries. -/
inductive FetchResponse where
  | httpError
  | notArray
  | arrayBody (entries : List RegistryEntry)
  deriving Repr

/-- Mutable fields of the RegistryManager instance touched by
fetchRegistry. -/
structure RMState where
  currentRpcs : List ParsedRpc
  lastUpdate : Option ℤ
  lastFetchTime : Option ℤ
  fetchErrors : ℕ
  deriving Repr, DecidableEq

/-- Events emitted by the registry manager. -/
inductive RMEvent where
  | registryUpdated (rpcs : List ParsedRpc)
  deriving Repr, DecidableEq

/-- The retry loop of fetchRegistry.  Each attempt consults the response
oracle; a non-array body, a throw, or an empty parsed list counts as a
failure and consumes a retry; a successful parse installs the new
snapshot and emits registryUpdated iff hasRegistryChanged. -/
def fetchGo (responses : ℕ → FetchResponse) (maxRetries : ℕ) (now : ℤ) :
    ℕ → RMState → Except Unit (List ParsedRpc) × RMState × List RMEvent
  | 0, st => (Except.error (), st, [])
  | fuel + 1, st =>
    match responses (maxRetries - (fuel + 1)) with
    | FetchResponse.httpError =>
      if fuel = 0 then
        (Except.error (), { st with fetchErrors := st.fetchErrors + 1 }, [])
      else fetchGo responses maxRetries now fuel
        { st with fetchErrors := st.fetchErrors + 1 }
    | FetchResponse.notArray =>
      if fuel = 0 then
        (Except.error (), { st with fetchErrors := st.fetchErrors + 1 }, [])
      else fetchGo responses maxRetries now fuel
        { st with fetchErrors := st.fetchErrors + 1 }
    | FetchResponse.arrayBody entries =>
      if (parseRpcEntries entries).isEmpty then
        if fuel = 0 then
          (Except.error (), { st with fetchErrors := st.fetchErrors + 1 }, [])
        else fetchGo responses maxRetries now fuel
          { st with fetchErrors := st.fetchErrors + 1 }
      else
        (Except.ok (parseRpcEntries entries),
          { currentRpcs := parseRpcEntries entries, lastUpdate := some now,
            lastFetchTime := some now, fetchErrors := 0 },
          if hasRegistryChanged st.currentRpcs (parseRpcEntries entries) then
            [RMEvent.registryUpdated (parseRpcEntries entries)] else [])

/-- RegistryManager.fetchRegistry with this.maxRetries = 3. -/
def fetchRegistry (responses : ℕ → FetchResponse) (st : RMState)
    (now : ℤ) : Except Unit (List ParsedRpc) × RMState × List RMEvent :=
  fetchGo responses 3 now 3 st

/-- Test for the healthStatusChanged event constructor. -/
def isHealthChangedEvent : HMEvent → Bool
  | HMEvent.healthStatusChanged _ _ _ => true
  | HMEvent.allRpcsUnhealthy => false

/-- The four quantities compared by the change test in
updateHealthStatus: healthy count, unhealthy count, archive count, and
median height. -/
def hmTuple (st : HMState) : ℕ × ℕ × ℕ × ℤ :=
  (st.healthyRpcs.length, st.unhealthyRpcs.length,
   st.archiveRpcs.length, st.lastMedianHeight)

/-! ## Concrete fixtures used by witnesses and counterexamples -/

/-- The freshly constructed health monitor state. -/
def hm0 : HMState := ⟨[], [], [], 0⟩

/-- The freshly constructed load balancer state. -/
def lbEmpty : LBState := ⟨[], [], 0, [], []⟩

/-- Fixture: two live endpoints at heights 10 and 20. -/
def c2Rpcs : List HRpc :=
  [⟨"https://a.example", true, false, some 10⟩,
   ⟨"https://b.example", true, false, some 20⟩]

/-- Fixture: one live archive endpoint. -/
def c4Rpcs : List HRpc := [⟨"https://a.example", true, true, some 10⟩]

/-- Fixture: probe round with one live and one dead endpoint. -/
def c5Round1 : HMState × List HMEvent :=
  updateHealthStatus 50
    [⟨"https://a.example", true, false, some 100⟩,
     ⟨"https://b.example", false, false, none⟩] hm0

/-- Fixture: next probe round, same live endpoint, one more dead one. -/
def c5Round2 : HMState × List HMEvent :=
  updateHealthStatus 50
    [⟨"https://a.example", true, false, some 100⟩,
     ⟨"https://b.example", false, false, none⟩,
     ⟨"https://c.example", false, false, none⟩] c5Round1.1

/-- Fixture: round with one live endpoint, one dead. -/
def c6Round1 : HMState × List HMEvent :=
  updateHealthStatus 50
    [⟨"https://a.example", true, false, some 100⟩,
     ⟨"https://b.example", false, false, none⟩] hm0

/-- Fixture: every endpoint now fails its probe. -/
def c6Round2 : HMState × List HMEvent :=
  updateHealthStatus 50
    [⟨"https://a.example", false, false, some 100⟩,
     ⟨"https://b.example", false, false, none⟩] c6Round1.1

/-- Fixture: still no live endpoint, and the tracked set gained a third
(also failing) endpoint. -/
def c6Round3 : HMState × List HMEvent :=
  updateHealthStatus 50
    [⟨"https://a.example", false, false, some 100⟩,
     ⟨"https://b.example", false, false, none⟩,
     ⟨"https://c.example", false, false, none⟩] c6Round2.1

/-- Fixture: a breaker taken to open by three recorded failures. -/
def c1Opened : LBState :=
  updateCircuitBreaker
    (updateCircuitBreaker
      (updateCircuitBreaker lbEmpty ("https://a.example") false 5)
      ("https://a.example") false 6)
    ("https://a.example") false 7

/-- Fixture: the open breaker checked at selection after its deadline. -/
def c1Half : LBState := (isCircuitBreakerOpen c1Opened ("https://a.example") 40000).2

/-- Fixture: a failure recorded against the half-open breaker. -/
def c1AfterFail : LBState := updateCircuitBreaker c1Half ("https://a.example") false 40001

/-- Fixture: a closed breaker with two recorded failures. -/
def c1wSt : LBState :=
  ⟨[], [], 0, [], [(("https://a.example"), ⟨BState.closed, 2, none, none⟩)]⟩

/-- Fixture: a load balancer holding an open breaker whose retry deadline
is far in the future. -/
def c10St : LBState :=
  ⟨[], [], 0, [], [(("https://a.example"), ⟨BState.open, 3, some 5, some 900000⟩)]⟩

/-- Fixture: a healthy pool containing the endpoint with the open breaker. -/
def c10Healthy : List Rpc := [⟨"https://a.example", "A", some 120, false⟩]

/-- Fixture: a previously parsed registry snapshot with one endpoint. -/
def c8Prev : ParsedRpc := ⟨"https://a.example", "T"⟩

/-- Fixture: a registry entry for the same endpoint URL. -/
def c8Entry : RegistryEntry := ⟨some ("https://a.example"), some ("T")⟩

/-- Fixture: registry manager state holding the one-endpoint snapshot. -/
def c8St : RMState := ⟨[c8Prev], none, none, 0⟩

/-- Fixture: a fetch whose body lists the same URL twice. -/
def c8Run : Except Unit (List ParsedRpc) × RMState × List RMEvent :=
  fetchRegistry (fun _ => FetchResponse.arrayBody [c8Entry, c8Entry]) c8St 0

/-- Fixture: a two-endpoint target pool. -/
def c3Pool : List Rpc :=
  [⟨"https://a.example", "A", none, false⟩, ⟨"https://b.example", "B", none, false⟩]

/-- Fixture: every forward fails, with distinct messages. -/
def c3Out : ℕ → Outcome :=
  fun k => Outcome.failure (if k = 0 then "boom" else "bang") none

/-- Fixture: a balancer whose breakers for both pool endpoints are open
with distant retry deadlines (the all-skip path of routeRequest, which
involves no rational arithmetic and therefore evaluates by decide). -/
def c3wSt : LBState :=
  ⟨[], [], 0, [],
    [(("https://a.example"), ⟨BState.open, 3, some 0, some 500000⟩),
     (("https://b.example"), ⟨BState.open, 3, some 0, some 500000⟩)]⟩

/-! ## Supporting lemmas -/

theorem getLast?_cons_ne_nil {α : Type} (a : α) {l : List α} (h : l ≠ []) :
    (a :: l).getLast? = l.getLast? := by
  cases l with
  | nil => exact absurd rfl h
  | cons b t => rfl

theorem lookup_setEntry_self {α : Type} (m : List (String × α)) (k : String) (v : α) :
    (setEntry m k v).lookup k = some v := by
  induction m with
  | nil => simp [setEntry, List.lookup]
  | cons p rest ih =>
    obtain ⟨k0, v0⟩ := p
    by_cases h : k0 = k
    · subst h
      simp [setEntry, List.lookup]
    · simp only [setEntry, if_neg h, List.lookup]
      have : (k == k0) = false := by
        simp [beq_iff_eq]
        exact fun e => h e.symm
      rw [this]
      exact ih

theorem lookup_setEntry_ne {α : Type} (m : List (String × α)) (k q : String)
    (v : α) (h : q ≠ k) : (setEntry m k v).lookup q = m.lookup q := by
  induction m with
  | nil =>
    simp only [setEntry, List.lookup]
    have : (q == k) = false := by simp [beq_iff_eq, h]
    rw [this]
  | cons p rest ih =>
    obtain ⟨k0, v0⟩ := p
    by_cases hk : k0 = k
    · subst hk
      simp only [setEntry, if_pos rfl, List.lookup]
      have : (q == k0) = false := by simp [beq_iff_eq, h]
      rw [this]
    · simp only [setEntry, if_neg hk, List.lookup]
      cases hq : (q == k0) with
      | true => rfl
      | false => exact ih

theorem lookup_setEntry_isSome {α : Type} (m : List (String × α)) (k q : String)
    (v : α) (h : (m.lookup q).isSome) : ((setEntry m k v).lookup q).isSome := by
  by_cases hk : q = k
  · subst hk
    rw [lookup_setEntry_self]
    rfl
  · rw [lookup_setEntry_ne m k q v hk]
    exact h

/-! ## Claim C4 -/

/-- Claim C4: after every pool recomputation, by URL, the archive pool is
contained in the healthy pool and the healthy pool is contained in the
tracked endpoint set. -/
theorem c4_pool_inclusions (syncThreshold : ℕ) (allRpcs : List HRpc) (st : HMState) :
    (∀ u, u ∈ ((updateHealthStatus syncThreshold allRpcs st).1.archiveRpcs.map (·.url)) →
       u ∈ ((updateHealthStatus syncThreshold allRpcs st).1.healthyRpcs.map (·.url))) ∧
    (∀ u, u ∈ ((updateHealthStatus syncThreshold allRpcs st).1.healthyRpcs.map (·.url)) →
       u ∈ (allRpcs.map (·.url))) := by
  constructor
  · intro u hu
    simp only [updateHealthStatus, List.mem_map] at hu ⊢
    obtain ⟨r, hr, rfl⟩ := hu
    exact ⟨r, List.mem_of_mem_filter hr, rfl⟩
  · intro u hu
    simp only [updateHealthStatus, List.mem_map] at hu ⊢
    obtain ⟨r, hr, rfl⟩ := hu
    exact ⟨r, List.mem_of_mem_filter (List.mem_of_mem_filter hr), rfl⟩

/-- Witness for C4 at a concrete probe round. -/
theorem c4_pool_inclusions_witness :
    ("https://a.example") ∈ ((updateHealthStatus 50 c4Rpcs hm0).1.healthyRpcs.map (·.url)) :=
  (c4_pool_inclusions 50 c4Rpcs hm0).1 ("https://a.example") (by decide)

/-! ## Claim C2 -/

/-- Claim C2 (amended): the per-chain median height is computed over the
reported heights of live endpoints with a known height; it is 0 when that
set is empty, and otherwise it is the element at index floor(n / 2) of
the ascending sort of those heights — for an even count the upper-middle
element, not the lower-middle one. -/
theorem c2_median_amended (syncThreshold : ℕ) (allRpcs : List HRpc) (st : HMState) :
    ((allRpcs.filter (·.healthy)).filterMap (·.blockHeight) = [] →
      (updateHealthStatus syncThreshold allRpcs st).1.lastMedianHeight = 0) ∧
    ((allRpcs.filter (·.healthy)).filterMap (·.blockHeight) ≠ [] →
      ∃ sorted : List ℤ,
        sorted.Perm ((allRpcs.filter (·.healthy)).filterMap (·.blockHeight)) ∧
        sorted.Sorted (· ≤ ·) ∧
        (updateHealthStatus syncThreshold allRpcs st).1.lastMedianHeight =
          sorted.getD (sorted.length / 2) 0) := by
  constructor
  · intro h
    simp only [updateHealthStatus, h]
    rfl
  · intro h
    refine ⟨((allRpcs.filter (·.healthy)).filterMap (·.blockHeight)).insertionSort (· ≤ ·),
      List.perm_insertionSort _ _, List.sorted_insertionSort _ _, ?_⟩
    have hne : (((allRpcs.filter (·.healthy)).filterMap (·.blockHeight)).insertionSort (· ≤ ·)) ≠ [] := by
      intro he
      have hp := List.perm_insertionSort (fun a b : ℤ => a ≤ b) ((allRpcs.filter (·.healthy)).filterMap (·.blockHeight))
      rw [he] at hp
      exact h hp.nil_eq.symm
    simp only [updateHealthStatus]
    rw [if_neg (by simpa [List.isEmpty_iff] using hne)]

/-- Claim C2 counterexample: two live endpoints at heights 10 and 20; the
code stores 20 (the upper-middle element of the sorted heights), whereas
the lower-middle element is 10. -/
theorem c2_counterexample :
    (updateHealthStatus 50 c2Rpcs hm0).1.lastMedianHeight = 20 ∧
    ([10, 20] : List ℤ).Sorted (· ≤ ·) ∧
    ([10, 20] : List ℤ).Perm ((c2Rpcs.filter (·.healthy)).filterMap (·.blockHeight)) ∧
    ([10, 20] : List ℤ).getD ((([10, 20] : List ℤ).length - 1) / 2) 0 = 10 ∧
    (20 : ℤ) ≠ 10 := by
  refine ⟨by decide, by decide, by decide, by decide, by decide⟩

/-- Witness for C2 (amended) at the concrete two-endpoint round. -/
theorem c2_median_amended_witness :
    ∃ sorted : List ℤ,
      sorted.Perm ((c2Rpcs.filter (·.healthy)).filterMap (·.blockHeight)) ∧
      sorted.Sorted (· ≤ ·) ∧
      (updateHealthStatus 50 c2Rpcs hm0).1.lastMedianHeight =
        sorted.getD (sorted.length / 2) 0 :=
  (c2_median_amended 50 c2Rpcs hm0).2 (by decide)

theorem bne_tuple_iff (a a2 b b2 c c2 : ℕ) (d d2 : ℤ) :
    (((a != a2) || (b != b2) || (c != c2) || (d != d2)) = true) ↔
      (a, b, c, d) ≠ (a2, b2, c2, d2) := by
  simp only [Bool.or_eq_true, bne_iff_ne, ne_eq, Prod.mk.injEq, not_and]
  tauto

/-! ## Claim C5 -/

/-- Claim C5 (amended): after a probe round, exactly one
healthStatusChanged event is emitted iff the four-tuple (healthy count,
unhealthy count, archive count, median height) differs from the stored
tuple, and none otherwise.  (The source also compares the unhealthy
count, so the three-tuple of the original claim is not the exact
emission condition.) -/
theorem countP_change_events (a a2 b b2 c c2 : ℕ) (d d2 : ℤ)
    (sy un ar : List HRpc) (D : Bool) :
    (if ((a != a2) || (b != b2) || (c != c2) || (d != d2)) then
        HMEvent.healthStatusChanged sy un ar ::
          (if D then [HMEvent.allRpcsUnhealthy] else [])
      else []).countP isHealthChangedEvent =
      if (a, b, c, d) ≠ (a2, b2, c2, d2) then 1 else 0 := by
  by_cases h : ((a != a2) || (b != b2) || (c != c2) || (d != d2)) = true
  · rw [if_pos h, if_pos ((bne_tuple_iff a a2 b b2 c c2 d d2).mp h)]
    cases D <;> rfl
  · rw [if_neg h, if_neg (fun hne => h ((bne_tuple_iff a a2 b b2 c c2 d d2).mpr hne))]
    rfl

theorem c5_amended (syncThreshold : ℕ) (allRpcs : List HRpc) (st : HMState) :
    (updateHealthStatus syncThreshold allRpcs st).2.countP isHealthChangedEvent =
      if hmTuple st ≠ hmTuple (updateHealthStatus syncThreshold allRpcs st).1
        then 1 else 0 := by
  simp only [updateHealthStatus, hmTuple]
  apply countP_change_events

/-- Claim C5 counterexample: round 1 emits (and stores healthy 1,
archive 0, median 100); round 2 keeps that three-tuple yet emits again,
because the unhealthy count changed from 1 to 2. -/
theorem c5_counterexample :
    c5Round1.2.countP isHealthChangedEvent = 1 ∧
    (c5Round1.1.healthyRpcs.length, c5Round1.1.archiveRpcs.length,
        c5Round1.1.lastMedianHeight) =
      (c5Round2.1.healthyRpcs.length, c5Round2.1.archiveRpcs.length,
        c5Round2.1.lastMedianHeight) ∧
    c5Round2.2.countP isHealthChangedEvent = 1 := by
  refine ⟨by decide, by decide, by decide⟩

/-! ## Claim C6 -/

/-- Claim C6 (code bug): the allRpcsUnhealthy event is not limited to the
transition into the all-unhealthy state.  Concretely: round 1 has a
healthy endpoint (no emission); round 2 drops to zero healthy with two
tracked endpoints (the transition, one emission); round 3 still has zero
healthy and no recovery, yet the event fires again because the tracked
set grew by one failing endpoint. -/
theorem c6_code_bug :
    HMEvent.allRpcsUnhealthy ∉ c6Round1.2 ∧
    HMEvent.allRpcsUnhealthy ∈ c6Round2.2 ∧
    c6Round2.1.healthyRpcs.length = 0 ∧
    HMEvent.allRpcsUnhealthy ∈ c6Round3.2 ∧
    c6Round3.1.healthyRpcs.length = 0 := by
  refine ⟨by decide, by decide, by decide, by decide, by decide⟩

/-! ## Claim C1 -/

theorem getBreaker_updateCircuitBreaker (st : LBState) (url : String)
    (success : Bool) (now : ℤ) :
    getBreaker (updateCircuitBreaker st url success now) url =
      some (cbStep ((getBreaker st url).getD freshBreaker) success now) := by
  unfold getBreaker updateCircuitBreaker cbStep resetCircuitBreaker
  cases hb : st.circuitBreakers.lookup url with
  | none => cases success <;> simp [hb, lookup_setEntry_self]
  | some b => cases success <;> simp [hb, lookup_setEntry_self]

/-- Claim C1 (amended): for every endpoint URL, the circuit breaker obeys
the transition system actually implemented: recording an outcome rewrites
the record to cbStep of the old record (creating a closed record first
when absent); a breaker not yet open becomes open exactly when a failure
is recorded while it is closed with at least two prior consecutive
failures, setting the retry deadline 30 s ahead; an open breaker flips to
half-open exactly when a selection-time check occurs at or after the
retry deadline; a success recorded in half-open closes it with the
failure counter reset to 0; and — amending the original claim — a
failure recorded in half-open leaves the state half-open with the
counter incremented (it does not reopen the breaker). -/
theorem c1_amended (st : LBState) (url : String) (success : Bool) (now : ℤ) :
    (getBreaker (updateCircuitBreaker st url success now) url =
      some (cbStep ((getBreaker st url).getD freshBreaker) success now)) ∧
    (∀ b : Breaker,
      ((cbStep b success now).state = BState.open ∧ b.state ≠ BState.open) →
        (success = false ∧ b.state = BState.closed ∧ 3 ≤ b.failureCount + 1 ∧
          (cbStep b success now).nextRetryTime = some (now + 30000))) ∧
    (∀ b : Breaker,
      (success = false ∧ b.state = BState.closed ∧ 3 ≤ b.failureCount + 1) →
        ((cbStep b success now).state = BState.open ∧
          (cbStep b success now).nextRetryTime = some (now + 30000))) ∧
    (∀ b : Breaker, success = true → cbStep b success now = freshBreaker) ∧
    (∀ b : Breaker,
      (success = false ∧ b.state = BState.halfOpen) →
        ((cbStep b success now).state = BState.halfOpen ∧
          (cbStep b success now).failureCount = b.failureCount + 1)) ∧
    (∀ b : Breaker, getBreaker st url = some b → b.state = BState.open →
      ((now ≥ b.nextRetryTime.getD 0 →
          (isCircuitBreakerOpen st url now).1 = false ∧
          getBreaker (isCircuitBreakerOpen st url now).2 url =
            some { b with state := BState.halfOpen }) ∧
        (now < b.nextRetryTime.getD 0 →
          (isCircuitBreakerOpen st url now).1 = true ∧
          (isCircuitBreakerOpen st url now).2 = st))) ∧
    (∀ b : Breaker, getBreaker st url = some b → b.state ≠ BState.open →
      (isCircuitBreakerOpen st url now).1 = false ∧
      (isCircuitBreakerOpen st url now).2 = st) := by
  refine ⟨getBreaker_updateCircuitBreaker st url success now, ?_, ?_, ?_, ?_, ?_, ?_⟩
  · intro b hb
    obtain ⟨hopen, hne⟩ := hb
    cases success with
    | true =>
      exfalso
      simp [cbStep, freshBreaker] at hopen
    | false =>
      by_cases hc : b.failureCount + 1 ≥ 3 ∧ b.state = BState.closed
      · refine ⟨rfl, hc.2, hc.1, ?_⟩
        simp only [cbStep, Bool.false_eq_true, if_false]
        rw [if_pos hc]
      · exfalso
        simp only [cbStep, Bool.false_eq_true, if_false] at hopen
        rw [if_neg hc] at hopen
        exact hne hopen
  · intro b hb
    obtain ⟨hs, hclosed, hcount⟩ := hb
    subst hs
    simp only [cbStep, Bool.false_eq_true, if_false]
    rw [if_pos ⟨hcount, hclosed⟩]
    exact ⟨rfl, rfl⟩
  · intro b hs
    subst hs
    rfl
  · intro b hb
    obtain ⟨hs, hhalf⟩ := hb
    subst hs
    simp only [cbStep, Bool.false_eq_true, if_false]
    rw [if_neg (by simp [hhalf])]
    exact ⟨hhalf, rfl⟩
  · intro b hb hopen
    unfold getBreaker at hb
    constructor
    · intro hnow
      unfold isCircuitBreakerOpen getBreaker
      simp only [hb]
      rw [if_neg (by simp [hopen]), if_pos hopen, if_pos hnow]
      exact ⟨rfl, by simp [lookup_setEntry_self]⟩
    · intro hnow
      unfold isCircuitBreakerOpen
      simp only [hb]
      rw [if_neg (by simp [hopen]), if_pos hopen, if_neg (by omega)]
      exact ⟨rfl, rfl⟩
  · intro b hb hne
    unfold getBreaker at hb
    unfold isCircuitBreakerOpen
    simp only [hb]
    by_cases hc : b.state = BState.closed
    · rw [if_pos hc]
      exact ⟨rfl, rfl⟩
    · rw [if_neg hc, if_neg hne]
      exact ⟨rfl, rfl⟩

/-- Claim C1 counterexample: take a breaker opened by three consecutive
failures, let its retry deadline pass so a selection flips it to
half-open, then record a failure: the state remains half-open instead of
returning to open as the claim asserts. -/
theorem c1_counterexample :
    (getBreaker c1Half ("https://a.example")).map (·.state) = some BState.halfOpen ∧
    (getBreaker c1AfterFail ("https://a.example")).map (·.state) = some BState.halfOpen ∧
    (getBreaker c1AfterFail ("https://a.example")).map (·.nextRetryTime) =
      some (some 30007) ∧
    BState.halfOpen ≠ BState.open := by
  refine ⟨by decide, by decide, by decide, by decide⟩

/-- Witness for C1 (amended): a closed breaker with two prior failures
opens on the next recorded failure with deadline 30000 ms ahead. -/
theorem c1_amended_witness :
    (cbStep ((getBreaker c1wSt ("https://a.example")).getD freshBreaker) false 0).state =
        BState.open ∧
    (cbStep ((getBreaker c1wSt ("https://a.example")).getD freshBreaker) false 0).nextRetryTime =
        some (0 + 30000) :=
  (c1_amended c1wSt ("https://a.example") false 0).2.2.1
    ((getBreaker c1wSt ("https://a.example")).getD freshBreaker)
    ⟨rfl, by decide, by decide⟩

/-! ## Claim C10 -/

theorem updateRpcWeights_circuitBreakers (rpcs : List Rpc) (st : LBState) (now : ℤ) :
    (updateRpcWeights st rpcs now).circuitBreakers = st.circuitBreakers := by
  induction rpcs generalizing st with
  | nil => rfl
  | cons r rest ih =>
    unfold updateRpcWeights
    simp only [List.foldl_cons]
    cases h : st.rpcWeights.lookup r.url <;> exact ih _

theorem resetCircuitBreaker_fresh (st : LBState) (url q : String)
    (h : getBreaker st q = some freshBreaker) :
    getBreaker (resetCircuitBreaker st url) q = some freshBreaker := by
  unfold getBreaker at h ⊢
  unfold resetCircuitBreaker
  cases hl : st.circuitBreakers.lookup url with
  | none => exact h
  | some b =>
    by_cases hq : q = url
    · subst hq
      simp [lookup_setEntry_self]
    · simpa [lookup_setEntry_ne st.circuitBreakers url q freshBreaker hq] using h

theorem resetCircuitBreaker_isSome (st : LBState) (url q : String)
    (h : (getBreaker st q).isSome) :
    (getBreaker (resetCircuitBreaker st url) q).isSome := by
  unfold getBreaker at h ⊢
  unfold resetCircuitBreaker
  cases hl : st.circuitBreakers.lookup url with
  | none => exact h
  | some b => exact lookup_setEntry_isSome st.circuitBreakers url q freshBreaker h

theorem foldReset_fresh (l : List Rpc) (st : LBState) (q : String)
    (h : getBreaker st q = some freshBreaker) :
    getBreaker
      (l.foldl (fun st rpc =>
        if (st.circuitBreakers.lookup rpc.url).isSome then
          resetCircuitBreaker st rpc.url
        else st) st) q = some freshBreaker := by
  induction l generalizing st with
  | nil => exact h
  | cons r rest ih =>
    simp only [List.foldl_cons]
    by_cases hs : ((st.circuitBreakers.lookup r.url).isSome : Prop)
    · rw [if_pos hs]
      exact ih _ (resetCircuitBreaker_fresh st r.url q h)
    · rw [if_neg hs]
      exact ih _ h

theorem foldReset_mem (l : List Rpc) (st : LBState) (q : String)
    (hmem : q ∈ l.map (·.url)) (hrec : (getBreaker st q).isSome) :
    getBreaker
      (l.foldl (fun st rpc =>
        if (st.circuitBreakers.lookup rpc.url).isSome then
          resetCircuitBreaker st rpc.url
        else st) st) q = some freshBreaker := by
  induction l generalizing st with
  | nil => simp at hmem
  | cons r rest ih =>
    simp only [List.foldl_cons]
    by_cases hq : q = r.url
    · subst hq
      have hs : ((st.circuitBreakers.lookup r.url).isSome : Prop) := hrec
      rw [if_pos hs]
      have hfresh : getBreaker (resetCircuitBreaker st r.url) r.url = some freshBreaker := by
        unfold getBreaker at hrec ⊢
        unfold resetCircuitBreaker
        cases hl : st.circuitBreakers.lookup r.url with
        | none =>
          rw [hl] at hrec
          exact absurd hrec (by simp)
        | some b => simp [lookup_setEntry_self]
      exact foldReset_fresh rest _ r.url hfresh
    · have hmem2 : q ∈ rest.map (·.url) := by
        simp only [List.map_cons, List.mem_cons] at hmem
        exact hmem.resolve_left hq
      by_cases hs : ((st.circuitBreakers.lookup r.url).isSome : Prop)
      · rw [if_pos hs]
        exact ih _ hmem2 (resetCircuitBreaker_isSome st r.url q hrec)
      · rw [if_neg hs]
        exact ih _ hmem2 hrec

/-- Claim C10: whenever the load balancer receives new pools, every
endpoint of the delivered healthy list that already has a circuit-breaker
record has that record reset to closed with failure counter 0 and cleared
timestamps, regardless of its previous state or deadline. -/
theorem c10_breaker_reset (st : LBState) (healthy archive : List Rpc)
    (now : ℤ) (url : String) (hmem : url ∈ healthy.map (·.url))
    (hrec : (getBreaker st url).isSome) :
    getBreaker (updateHealthyRpcs st healthy archive now) url =
      some freshBreaker := by
  unfold updateHealthyRpcs
  apply foldReset_mem healthy _ url hmem
  unfold getBreaker at hrec ⊢
  rw [updateRpcWeights_circuitBreakers]
  split <;> exact hrec

/-- Witness for C10: an open breaker with a distant retry deadline is
reset to the fresh closed record by a health update containing its URL. -/
theorem c10_breaker_reset_witness :
    getBreaker (updateHealthyRpcs c10St c10Healthy [] 100 ) ("https://a.example") =
      some freshBreaker :=
  c10_breaker_reset c10St c10Healthy [] 100 ("https://a.example") (by decide) (by decide)

/-! ## Claim C9 -/

theorem getWeight_updateRpcMetrics (st : LBState) (url : String)
    (success : Bool) (responseTime : ℚ) (now : ℤ) :
    getWeight (updateRpcMetrics st url success responseTime now) url =
      some (metricsStep
        ((getWeight st url).getD
          ⟨1, 0, 0, responseTime, now⟩) success responseTime now) := by
  unfold getWeight updateRpcMetrics metricsStep
  cases hw : st.rpcWeights.lookup url with
  | none => cases success <;> simp [hw, lookup_setEntry_self]
  | some w => cases success <;> simp [hw, lookup_setEntry_self]

theorem weightOf_bounds (avg : ℚ) : 0.1 ≤ weightOf avg ∧ weightOf avg ≤ 5.0 := by
  unfold weightOf
  constructor
  · exact le_max_left _ _
  · refine max_le (by norm_num) ?_
    exact min_le_left _ _

theorem weightOf_antitone (a1 a2 : ℚ) (h : a1 ≤ a2) :
    weightOf a2 ≤ weightOf a1 := by
  unfold weightOf
  have h100 : (0 : ℚ) < max a1 100 := lt_of_lt_of_le (by norm_num) (le_max_right _ _)
  have hdiv : 1000 / max a2 100 ≤ 1000 / max a1 100 := by
    apply div_le_div_of_nonneg_left (by norm_num) h100
    exact max_le_max h le_rfl
  exact max_le_max le_rfl (min_le_min le_rfl hdiv)

/-- Claim C9: for every endpoint weight record and recorded outcome, the
total counter is incremented; a success sets the average to
0.8 avg + 0.2 rt and the weight to clamp(1000 / max(avg, 100), 0.1, 5.0);
a failure leaves weight and average unchanged.  Consequently the weight
of the updated record is weightOf of its average after every success, any
weight in [0.1, 5.0] stays in [0.1, 5.0] under arbitrary further
outcomes, and lowering the average never lowers the weight. -/
theorem c9_weight_update (st : LBState) (url : String) (success : Bool)
    (responseTime : ℚ) (now : ℤ) :
    (getWeight (updateRpcMetrics st url success responseTime now) url =
      some (metricsStep ((getWeight st url).getD ⟨1, 0, 0, responseTime, now⟩)
        success responseTime now)) ∧
    (∀ m : WeightInfo,
      (metricsStep m success responseTime now).totalRequests = m.totalRequests + 1) ∧
    (∀ m : WeightInfo, success = true →
      (metricsStep m success responseTime now).averageResponseTime =
          m.averageResponseTime * 0.8 + responseTime * 0.2 ∧
        (metricsStep m success responseTime now).weight =
          weightOf (metricsStep m success responseTime now).averageResponseTime) ∧
    (∀ m : WeightInfo, success = false →
      (metricsStep m success responseTime now).weight = m.weight ∧
        (metricsStep m success responseTime now).averageResponseTime =
          m.averageResponseTime) ∧
    (∀ (m : WeightInfo) (outs : List (Bool × ℚ × ℤ)),
      0.1 ≤ m.weight → m.weight ≤ 5.0 →
      0.1 ≤ (outs.foldl (fun m o => metricsStep m o.1 o.2.1 o.2.2) m).weight ∧
        (outs.foldl (fun m o => metricsStep m o.1 o.2.1 o.2.2) m).weight ≤ 5.0) ∧
    (∀ a1 a2 : ℚ, a1 ≤ a2 → weightOf a2 ≤ weightOf a1) := by
  refine ⟨getWeight_updateRpcMetrics st url success responseTime now,
    ?_, ?_, ?_, ?_, weightOf_antitone⟩
  · intro m
    unfold metricsStep
    cases success <;> rfl
  · intro m hs
    subst hs
    unfold metricsStep weightOf
    simp only [if_pos rfl]
    exact ⟨rfl, rfl⟩
  · intro m hs
    subst hs
    unfold metricsStep
    simp only [Bool.false_eq_true, if_false]
    constructor <;> first | rfl | trivial
  · intro m outs
    induction outs generalizing m with
    | nil => exact fun h1 h2 => ⟨h1, h2⟩
    | cons o rest ih =>
      intro h1 h2
      simp only [List.foldl_cons]
      apply ih
      · unfold metricsStep
        cases o.1 with
        | true =>
          simp only [if_pos rfl]
          exact (weightOf_bounds _).1
        | false =>
          simp only [Bool.false_eq_true, if_false]
          exact h1
      · unfold metricsStep
        cases o.1 with
        | true =>
          simp only [if_pos rfl]
          exact (weightOf_bounds _).2
        | false =>
          simp only [Bool.false_eq_true, if_false]
          exact h2

/-- Witness for C9: a fresh record given a successful 200 ms outcome ends
with average 200 and weight 5. -/
theorem c9_weight_update_witness :
    (metricsStep ((getWeight lbEmpty ("https://a.example")).getD ⟨1, 0, 0, 200, 0⟩)
        true 200 0).averageResponseTime = 200 * 0.8 + 200 * 0.2 ∧
    (metricsStep ((getWeight lbEmpty ("https://a.example")).getD ⟨1, 0, 0, 200, 0⟩)
        true 200 0).weight =
      weightOf (metricsStep ((getWeight lbEmpty ("https://a.example")).getD ⟨1, 0, 0, 200, 0⟩)
        true 200 0).averageResponseTime :=
  (c9_weight_update lbEmpty ("https://a.example") true 200 0).2.2.1
    ((getWeight lbEmpty ("https://a.example")).getD ⟨1, 0, 0, 200, 0⟩) rfl

/-! ## Claim C7 -/

theorem fetchGo_spec (responses : ℕ → FetchResponse) (maxRetries : ℕ) (now : ℤ) :
    ∀ (fuel : ℕ) (st : RMState),
      ((fetchGo responses maxRetries now fuel st).1 = Except.error () →
        (fetchGo responses maxRetries now fuel st).2.1.currentRpcs = st.currentRpcs) ∧
      (∀ l, (fetchGo responses maxRetries now fuel st).1 = Except.ok l →
        l ≠ [] ∧ (fetchGo responses maxRetries now fuel st).2.1.currentRpcs = l) := by
  intro fuel
  induction fuel with
  | zero =>
    intro st
    exact ⟨fun _ => rfl, fun l hl => by simp [fetchGo] at hl⟩
  | succ fuel ih =>
    intro st
    unfold fetchGo
    cases hr : responses (maxRetries - (fuel + 1)) with
    | httpError =>
      dsimp only
      by_cases hf : fuel = 0
      · subst hf
        simp only [if_pos rfl]
        exact ⟨fun _ => rfl, fun l hl => by simp at hl⟩
      · simp only [if_neg hf]
        exact ih _
    | notArray =>
      dsimp only
      by_cases hf : fuel = 0
      · subst hf
        simp only [if_pos rfl]
        exact ⟨fun _ => rfl, fun l hl => by simp at hl⟩
      · simp only [if_neg hf]
        exact ih _
    | arrayBody entries =>
      dsimp only
      by_cases hp : (parseRpcEntries entries).isEmpty = true
      · rw [if_pos hp]
        by_cases hf : fuel = 0
        · subst hf
          simp only [if_pos rfl]
          exact ⟨fun _ => rfl, fun l hl => by simp at hl⟩
        · simp only [if_neg hf]
          exact ih _
      · rw [if_neg hp]
        refine ⟨fun he => by simp at he, fun l hl => ?_⟩
        have : parseRpcEntries entries = l := by
          simpa using hl
        subst this
        exact ⟨by simpa [List.isEmpty_iff] using hp, rfl⟩

/-- Claim C7: every failing registry fetch — transport or HTTP error,
non-array body, or a parse producing the empty list, at every retry —
leaves the held snapshot (currentRpcs) unchanged; and a successful fetch
always installs a nonempty list, so a populated snapshot is never
replaced by an empty one. -/
theorem c7_snapshot_preserved (responses : ℕ → FetchResponse) (st : RMState) (now : ℤ) :
    ((fetchRegistry responses st now).1 = Except.error () →
      (fetchRegistry responses st now).2.1.currentRpcs = st.currentRpcs) ∧
    (∀ l, (fetchRegistry responses st now).1 = Except.ok l →
      l ≠ [] ∧ (fetchRegistry responses st now).2.1.currentRpcs = l) :=
  fetchGo_spec responses 3 now 3 st

/-- Witness for C7: three transport failures in a row leave the
one-endpoint snapshot untouched. -/
theorem c7_snapshot_preserved_witness :
    (fetchRegistry (fun _ => FetchResponse.httpError) c8St 0).2.1.currentRpcs =
      c8St.currentRpcs :=
  (c7_snapshot_preserved (fun _ => FetchResponse.httpError) c8St 0).1 rfl

/-! ## Claim C8 -/

theorem hasRegistryChanged_iff (cur new : List ParsedRpc) :
    hasRegistryChanged cur new = true ↔
      (cur.length ≠ new.length ∨
        ¬ (∀ u, u ∈ cur.map (·.url) ↔ u ∈ new.map (·.url))) := by
  unfold hasRegistryChanged
  by_cases hlen : cur.length ≠ new.length
  · rw [if_pos hlen]
    simp [hlen]
  · rw [if_neg hlen]
    simp only [Bool.or_eq_true, List.any_eq_true, Bool.not_eq_true']
    constructor
    · rintro (⟨u, hu, hc⟩ | ⟨u, hu, hc⟩) <;>
        refine Or.inr (fun hall => ?_)
      · have := (hall u).mpr hu
        rw [← List.elem_iff] at this
        simp [List.contains] at hc
        exact absurd this (by simpa [List.contains] using hc)
      · have := (hall u).mp hu
        rw [← List.elem_iff] at this
        exact absurd this (by simpa [List.contains] using hc)
    · rintro (h | h)
      · exact absurd h (by simpa using hlen)
      · rw [not_forall] at h
        obtain ⟨u, hu⟩ := h
        rw [not_iff] at hu
        by_cases hmem : u ∈ cur.map (·.url)
        · refine Or.inr ⟨u, hmem, ?_⟩
          have : u ∉ new.map (·.url) := fun hn => (hu.mpr hn) hmem
          simpa [List.contains, List.elem_iff] using this
        · refine Or.inl ⟨u, hu.mp (by tauto), ?_⟩
          simpa [List.contains, List.elem_iff] using hmem

theorem fetchGo_events (responses : ℕ → FetchResponse) (maxRetries : ℕ) (now : ℤ) :
    ∀ (fuel : ℕ) (st : RMState) (l : List ParsedRpc),
      (fetchGo responses maxRetries now fuel st).1 = Except.ok l →
      (fetchGo responses maxRetries now fuel st).2.2 =
        if hasRegistryChanged st.currentRpcs l then [RMEvent.registryUpdated l]
        else [] := by
  intro fuel
  induction fuel with
  | zero =>
    intro st l hl
    simp [fetchGo] at hl
  | succ fuel ih =>
    intro st l hl
    unfold fetchGo at hl ⊢
    cases hr : responses (maxRetries - (fuel + 1)) with
    | httpError =>
      rw [hr] at hl
      dsimp only at hl ⊢
      by_cases hf : fuel = 0
      · subst hf
        simp at hl
      · simp only [if_neg hf] at hl ⊢
        exact ih _ l hl
    | notArray =>
      rw [hr] at hl
      dsimp only at hl ⊢
      by_cases hf : fuel = 0
      · subst hf
        simp at hl
      · simp only [if_neg hf] at hl ⊢
        exact ih _ l hl
    | arrayBody entries =>
      rw [hr] at hl
      dsimp only at hl ⊢
      by_cases hp : (parseRpcEntries entries).isEmpty = true
      · rw [if_pos hp] at hl ⊢
        by_cases hf : fuel = 0
        · subst hf
          simp at hl
        · simp only [if_neg hf] at hl ⊢
          exact ih _ l hl
      · rw [if_neg hp] at hl ⊢
        have : parseRpcEntries entries = l := by simpa using hl
        subst this
        rfl

/-- Claim C8 (amended): a successful registry fetch emits registryUpdated
iff the parsed list differs from the held snapshot in length or in URL
membership; hence identical bodies fetched twice emit at most once and a
contributor-name-only change never emits — but, amending the claim, equal
URL sets with different multiplicities (duplicate entries) do emit,
because the length test fires before the set test. -/
theorem c8_emission_amended (responses : ℕ → FetchResponse) (st : RMState) (now : ℤ) :
    ∀ l, (fetchRegistry responses st now).1 = Except.ok l →
      ((fetchRegistry responses st now).2.2 = [RMEvent.registryUpdated l] ↔
        (st.currentRpcs.length ≠ l.length ∨
          ¬ (∀ u, u ∈ st.currentRpcs.map (·.url) ↔ u ∈ l.map (·.url)))) ∧
      (st.currentRpcs.map (·.url) = l.map (·.url) →
        (fetchRegistry responses st now).2.2 = []) ∧
      hasRegistryChanged l l = false := by
  intro l hl
  have hev : (fetchRegistry responses st now).2.2 =
      (if hasRegistryChanged st.currentRpcs l then [RMEvent.registryUpdated l]
        else []) :=
    fetchGo_events responses 3 now 3 st l hl
  have hchanged_self : ∀ m : List ParsedRpc, hasRegistryChanged m m = false := by
    intro m
    by_cases h : hasRegistryChanged m m = true
    · rw [hasRegistryChanged_iff] at h
      rcases h with h | h
      · exact absurd rfl h
      · exact absurd (fun u => Iff.rfl) h
    · simpa using h
  refine ⟨?_, ?_, hchanged_self l⟩
  · rw [hev]
    by_cases hc : hasRegistryChanged st.currentRpcs l = true
    · rw [if_pos hc]
      simp only [true_iff]
      exact (hasRegistryChanged_iff _ _).mp hc
    · rw [if_neg hc]
      constructor
      · intro he
        exact absurd he (by simp)
      · intro hd
        exact absurd ((hasRegistryChanged_iff _ _).mpr hd) hc
  · intro hurl
    rw [hev]
    have hlen : st.currentRpcs.length = l.length := by
      have := congrArg List.length hurl
      simpa using this
    have : hasRegistryChanged st.currentRpcs l = false := by
      by_cases h : hasRegistryChanged st.currentRpcs l = true
      · rw [hasRegistryChanged_iff] at h
        rcases h with h | h
        · exact absurd hlen h
        · exact absurd (fun u => by rw [hurl]) h
      · simpa using h
    rw [this]
    rfl

/-- Claim C8 counterexample: snapshot [a]; body parses to [a, a].  The URL
sets coincide, yet registryUpdated is emitted because 1 ≠ 2. -/
theorem c8_counterexample :
    c8Run.1 = Except.ok [c8Prev, c8Prev] ∧
    c8Run.2.2 = [RMEvent.registryUpdated [c8Prev, c8Prev]] ∧
    (c8St.currentRpcs.map (·.url)).dedup = ([c8Prev, c8Prev].map (·.url)).dedup := by
  refine ⟨rfl, rfl, by decide⟩

/-- Witness for C8 (amended) at the duplicated-entry fetch. -/
theorem c8_emission_amended_witness :
    hasRegistryChanged [c8Prev, c8Prev] [c8Prev, c8Prev] = false :=
  ((c8_emission_amended (fun _ => FetchResponse.arrayBody [c8Entry, c8Entry]) c8St 0)
    [c8Prev, c8Prev] rfl).2.2

/-! ## Claim C3: supporting lemmas -/

theorem isCircuitBreakerOpen_currentIndex (st : LBState) (url : String) (now : ℤ) :
    (isCircuitBreakerOpen st url now).2.currentIndex = st.currentIndex := by
  unfold isCircuitBreakerOpen
  cases h : st.circuitBreakers.lookup url with
  | none => rfl
  | some b =>
    dsimp only
    split
    · rfl
    · split
      · split
        · rfl
        · rfl
      · rfl

theorem updateRpcMetrics_currentIndex (st : LBState) (url : String)
    (success : Bool) (responseTime : ℚ) (now : ℤ) :
    (updateRpcMetrics st url success responseTime now).currentIndex =
      st.currentIndex := by
  unfold updateRpcMetrics
  dsimp only
  repeat' split
  all_goals rfl

theorem updateCircuitBreaker_currentIndex (st : LBState) (url : String)
    (success : Bool) (now : ℤ) :
    (updateCircuitBreaker st url success now).currentIndex = st.currentIndex := by
  unfold updateCircuitBreaker resetCircuitBreaker
  dsimp only
  repeat' split
  all_goals rfl

theorem selectRpc_of_pos (st : LBState) (P : List Rpc) (a : ℕ) (rand : ℚ)
    (now : ℤ) (ha : 0 < a) (hP : P ≠ []) :
    selectRpc st P a rand now =
      (P.get? ((st.currentIndex + a) % P.length), st) := by
  unfold selectRpc
  cases P with
  | nil => exact absurd rfl hP
  | cons r0 rest =>
    dsimp only
    by_cases h1 : (r0 :: rest).length = 1
    · rw [if_pos h1]
      have hrest : rest = [] := by
        cases rest with
        | nil => rfl
        | cons x xs => simp at h1
      subst hrest
      simp [Nat.mod_one]
    · rw [if_neg h1, if_pos ha]

theorem selectRpc_isSome (st : LBState) (P : List Rpc) (a : ℕ) (rand : ℚ)
    (now : ℤ) (hP : P ≠ []) : (selectRpc st P a rand now).1.isSome := by
  cases P with
  | nil => exact absurd rfl hP
  | cons r0 rest =>
    unfold selectRpc
    dsimp only
    by_cases h1 : (r0 :: rest).length = 1
    · rw [if_pos h1]
      rfl
    · rw [if_neg h1]
      by_cases ha : a > 0
      · rw [if_pos ha]
        have hlt : (st.currentIndex + a) % (r0 :: rest).length < (r0 :: rest).length :=
          Nat.mod_lt _ (by simp)
        rw [List.get?_eq_get hlt]
        rfl
      · rw [if_neg ha]
        by_cases hav : ((filterAvailable st now (r0 :: rest)).1.isEmpty : Prop)
        · rw [if_pos hav]
          have hlt : (filterAvailable st now (r0 :: rest)).2.currentIndex %
              (r0 :: rest).length < (r0 :: rest).length :=
            Nat.mod_lt _ (by simp)
          rw [List.get?_eq_get hlt]
          rfl
        · rw [if_neg hav]
          cases hw : weightedWalk (filterAvailable st now (r0 :: rest)).2
              (filterAvailable st now (r0 :: rest)).1
              (rand * ((filterAvailable st now (r0 :: rest)).1.foldl
                (fun sum r => sum +
                  (((filterAvailable st now (r0 :: rest)).2.rpcWeights.lookup r.url).map
                    (fun x => x.weight)).getD 1) 0)) with
          | none =>
            dsimp only
            have hpos : 0 < (filterAvailable st now (r0 :: rest)).1.length := by
              cases hfa : (filterAvailable st now (r0 :: rest)).1 with
              | nil => rw [hfa] at hav ; exact absurd rfl hav
              | cons y ys => simp
            have hlt : (filterAvailable st now (r0 :: rest)).2.currentIndex %
                (filterAvailable st now (r0 :: rest)).1.length <
                (filterAvailable st now (r0 :: rest)).1.length :=
              Nat.mod_lt _ hpos
            rw [List.get?_eq_get hlt]
            rfl
          | some r => rfl

theorem routeGo_spec (P : List Rpc) (outcomes : ℕ → Outcome) (rand : ℚ)
    (now : ℤ) (retryDelay : ℚ) (maxAttempts : ℕ) (hP : P ≠ []) :
    ∀ (fuel attempts : ℕ) (lastErr : Option String) (st : LBState)
      (tr : List It) (resE : Except RouteError RouteSuccess) (st2 : LBState),
      routeGo P outcomes rand now retryDelay maxAttempts attempts fuel lastErr st =
        (tr, resE, st2) →
      (tr.length ≤ fuel) ∧
      (1 ≤ attempts → st2.currentIndex = st.currentIndex ∧
        (∀ j, j < tr.length →
          (tr.get? j).map itUrl =
            (P.get? ((st.currentIndex + attempts + j) % P.length)).map (·.url))) ∧
      (∀ j u msg s, tr.get? j = some (It.forwardFail u msg s) →
        s = if attempts + j + 1 < maxAttempts then
            some (retryDelay * (((attempts + j : ℕ) : ℚ) + 1)) else none) ∧
      (match resE with
        | Except.ok s => tr.getLast? = some (It.forwardOk s.url s.responseTime)
        | Except.error (RouteError.allFailed a last) =>
            (∀ it ∈ tr, isFwdOk it = false) ∧ last = lastErrAfter tr lastErr ∧
            a = attempts + tr.length
        | _ => False) := by
  intro fuel
  induction fuel with
  | zero =>
    intro attempts lastErr st tr resE st2 heq
    unfold routeGo at heq
    injection heq with h1 h2
    injection h2 with h2 h3
    subst h1
    subst h2
    subst h3
    refine ⟨by simp, fun _ => ⟨rfl, fun j hj => by simp at hj⟩,
      fun j u msg s hs => by simp at hs, ?_⟩
    dsimp only
    exact ⟨fun it hit => absurd hit (List.not_mem_nil it), rfl, by simp⟩
  | succ fuel ih =>
    intro attempts lastErr st tr resE st2 heq
    unfold routeGo at heq
    rcases hsel : selectRpc st P attempts rand now with ⟨osel, st1⟩
    rw [hsel] at heq
    cases osel with
    | none =>
      have hs := selectRpc_isSome st P attempts rand now hP
      rw [hsel] at hs
      simp at hs
    | some r =>
      dsimp only at heq
      by_cases hopen : ((isCircuitBreakerOpen st1 r.url now).1 = true)
      · rw [if_pos hopen] at heq
        rcases hY : routeGo P outcomes rand now retryDelay maxAttempts
            (attempts + 1) fuel lastErr (isCircuitBreakerOpen st1 r.url now).2
          with ⟨tl, resE1, stF⟩
        rw [hY] at heq
        dsimp only at heq
        injection heq with h1 h2
        injection h2 with h2 h3
        subst h1
        subst h2
        subst h3
        have IH := ih (attempts + 1) lastErr
          ((isCircuitBreakerOpen st1 r.url now).2) tl resE1 stF hY
        refine ⟨?_, ?_, ?_, ?_⟩
        · have := IH.1
          simp only [List.length_cons]
          omega
        · intro hat
          have hsp := selectRpc_of_pos st P attempts rand now hat hP
          have hcomb := hsp.symm.trans hsel
          injection hcomb with hget hst1
          have hCi := IH.2.1 (by omega)
          have hc2 : (isCircuitBreakerOpen st1 r.url now).2.currentIndex =
              st.currentIndex := by
            rw [isCircuitBreakerOpen_currentIndex, ← hst1]
          constructor
          · rw [hCi.1, hc2]
          · intro j hj
            cases j with
            | zero =>
              simp only [List.get?_cons_zero, Option.map_some', Nat.add_zero]
              rw [hget]
              rfl
            | succ j =>
              simp only [List.get?_cons_succ]
              have hjlt : j < tl.length := by
                simp only [List.length_cons] at hj
                omega
              have hthis := hCi.2 j hjlt
              rw [hc2] at hthis
              have he : st.currentIndex + (attempts + 1) + j =
                  st.currentIndex + attempts + (j + 1) := by omega
              rw [he] at hthis
              exact hthis
        · intro j u msg s hs
          cases j with
          | zero => simp at hs
          | succ j =>
            simp only [List.get?_cons_succ] at hs
            have IHD := IH.2.2.1 j u msg s hs
            have he : attempts + 1 + j = attempts + (j + 1) := by omega
            rw [he] at IHD
            exact IHD
        · cases resE1 with
          | ok s =>
            have IHE := IH.2.2.2
            dsimp only at IHE ⊢
            have htl : tl ≠ [] := by
              intro h
              rw [h] at IHE
              simp at IHE
            rw [getLast?_cons_ne_nil _ htl]
            exact IHE
          | error e =>
            cases e with
            | noUpstreams => exact (IH.2.2.2).elim
            | internalError => exact (IH.2.2.2).elim
            | allFailed a last =>
              have IHE := IH.2.2.2
              dsimp only at IHE ⊢
              refine ⟨?_, ?_, ?_⟩
              · intro it hit
                rcases List.mem_cons.mp hit with h | h
                · subst h
                  rfl
                · exact IHE.1 it h
              · exact IHE.2.1
              · have := IHE.2.2
                simp only [List.length_cons]
                omega
      · rw [if_neg hopen] at heq
        cases hout : outcomes attempts with
        | success rt =>
          rw [hout] at heq
          dsimp only at heq
          injection heq with h1 h2
          injection h2 with h2 h3
          subst h1
          subst h2
          subst h3
          refine ⟨by simp, ?_, ?_, ?_⟩
          · intro hat
            have hsp := selectRpc_of_pos st P attempts rand now hat hP
            have hcomb := hsp.symm.trans hsel
            injection hcomb with hget hst1
            constructor
            · rw [updateRpcMetrics_currentIndex, isCircuitBreakerOpen_currentIndex,
                ← hst1]
            · intro j hj
              cases j with
              | zero =>
                simp only [List.get?_cons_zero, Option.map_some', Nat.add_zero]
                rw [hget]
                rfl
              | succ j =>
                simp only [List.length_cons, List.length_nil] at hj
                omega
          · intro j u msg s hs
            cases j with
            | zero => simp at hs
            | succ j => simp at hs
          · dsimp only
            rfl
        | failure msg ort =>
          rw [hout] at heq
          dsimp only at heq
          rcases hY : routeGo P outcomes rand now retryDelay maxAttempts
              (attempts + 1) fuel (some msg)
              (updateCircuitBreaker
                (updateRpcMetrics (isCircuitBreakerOpen st1 r.url now).2 r.url
                  false (ort.getD 0) now) r.url false now)
            with ⟨tl, resE1, stF⟩
          rw [hY] at heq
          dsimp only at heq
          injection heq with h1 h2
          injection h2 with h2 h3
          subst h1
          subst h2
          subst h3
          have IH := ih (attempts + 1) (some msg)
            (updateCircuitBreaker
              (updateRpcMetrics (isCircuitBreakerOpen st1 r.url now).2 r.url
                false (ort.getD 0) now) r.url false now) tl resE1 stF hY
          refine ⟨?_, ?_, ?_, ?_⟩
          · have := IH.1
            simp only [List.length_cons]
            omega
          · intro hat
            have hsp := selectRpc_of_pos st P attempts rand now hat hP
            have hcomb := hsp.symm.trans hsel
            injection hcomb with hget hst1
            have hCi := IH.2.1 (by omega)
            have hc4 : (updateCircuitBreaker
                (updateRpcMetrics (isCircuitBreakerOpen st1 r.url now).2 r.url
                  false (ort.getD 0) now) r.url false now).currentIndex =
                st.currentIndex := by
              rw [updateCircuitBreaker_currentIndex, updateRpcMetrics_currentIndex,
                isCircuitBreakerOpen_currentIndex, ← hst1]
            constructor
            · rw [hCi.1, hc4]
            · intro j hj
              cases j with
              | zero =>
                simp only [List.get?_cons_zero, Option.map_some', Nat.add_zero]
                rw [hget]
                rfl
              | succ j =>
                simp only [List.get?_cons_succ]
                have hjlt : j < tl.length := by
                  simp only [List.length_cons] at hj
                  omega
                have hthis := hCi.2 j hjlt
                rw [hc4] at hthis
                have he : st.currentIndex + (attempts + 1) + j =
                    st.currentIndex + attempts + (j + 1) := by omega
                rw [he] at hthis
                exact hthis
          · intro j u msg2 s hs
            cases j with
            | zero =>
              simp only [List.get?_cons_zero, Option.some.injEq] at hs
              injection hs with h1 h2 h3
              subst h3
              simp only [Nat.add_zero]
            | succ j =>
              simp only [List.get?_cons_succ] at hs
              have IHD := IH.2.2.1 j u msg2 s hs
              have he : attempts + 1 + j = attempts + (j + 1) := by omega
              rw [he] at IHD
              exact IHD
          · cases resE1 with
            | ok s =>
              have IHE := IH.2.2.2
              dsimp only at IHE ⊢
              have htl : tl ≠ [] := by
                intro h
                rw [h] at IHE
                simp at IHE
              rw [getLast?_cons_ne_nil _ htl]
              exact IHE
            | error e =>
              cases e with
              | noUpstreams => exact (IH.2.2.2).elim
              | internalError => exact (IH.2.2.2).elim
              | allFailed a last =>
                have IHE := IH.2.2.2
                dsimp only at IHE ⊢
                refine ⟨?_, ?_, ?_⟩
                · intro it hit
                  rcases List.mem_cons.mp hit with h | h
                  · subst h
                    rfl
                  · exact IHE.1 it h
                · exact IHE.2.1
                · have := IHE.2.2
                  simp only [List.length_cons]
                  omega

/-- Claim C3: routeRequest on target pool P fails immediately with the
no-upstreams error (and performs no iteration) iff P is empty; otherwise
it runs at most min(retry_attempts, |P|) loop iterations; every retry
iteration k ≥ 1 addresses exactly the endpoint P[(cursor + k) mod |P|]
(where cursor is the round-robin index after the first selection),
whether it forwards or skips an open breaker; after a failed forward on
iteration k it sleeps retry_delay × (k + 1) exactly when another
iteration remains; the call succeeds iff some forward succeeded (the
trace then ends with that forward), and otherwise the thrown error
carries the message of the last failed forward. -/
theorem c3_route_retry (st : LBState) (P : List Rpc) (maxRetries : ℕ)
    (outcomes : ℕ → Outcome) (rand : ℚ) (now : ℤ) (retryDelay : ℚ)
    (tr : List It) (resE : Except RouteError RouteSuccess) (st2 : LBState)
    (heq : routeRequest st P maxRetries outcomes rand now retryDelay =
      (tr, resE, st2)) :
    (P = [] → tr = [] ∧ resE = Except.error RouteError.noUpstreams ∧ st2 = st) ∧
    (resE = Except.error RouteError.noUpstreams → P = []) ∧
    (resE = Except.error RouteError.internalError → P = []) ∧
    tr.length ≤ min maxRetries P.length ∧
    (∀ j, 1 ≤ j → j < tr.length →
      (tr.get? j).map itUrl =
        (P.get? (((selectRpc st P 0 rand now).2.currentIndex + j) % P.length)).map
          (·.url)) ∧
    (∀ j u msg s, tr.get? j = some (It.forwardFail u msg s) →
      s = if j + 1 < min maxRetries P.length then
          some (retryDelay * ((j : ℚ) + 1)) else none) ∧
    (∀ s, resE = Except.ok s →
      tr.getLast? = some (It.forwardOk s.url s.responseTime)) ∧
    (∀ a last, resE = Except.error (RouteError.allFailed a last) →
      (∀ it ∈ tr, isFwdOk it = false) ∧ last = lastErrAfter tr none ∧
      a = tr.length) := by
  by_cases hPe : P = []
  · subst hPe
    unfold routeRequest at heq
    rw [if_pos (show ([] : List Rpc).isEmpty = true from rfl)] at heq
    injection heq with h1 h2
    injection h2 with h2 h3
    subst h1
    subst h2
    subst h3
    refine ⟨fun _ => ⟨rfl, rfl, rfl⟩, fun _ => rfl, fun h => by simp at h,
      Nat.zero_le _, fun j hj1 hjl => by simp at hjl,
      fun j u msg s hs => by simp at hs, fun s h => by simp at h,
      fun a last h => by simp at h⟩
  · unfold routeRequest at heq
    rw [if_neg (by simpa [List.isEmpty_iff] using hPe)] at heq
    have master := routeGo_spec P outcomes rand now retryDelay
      (min maxRetries P.length) hPe (min maxRetries P.length) 0 none st
      tr resE st2 heq
    refine ⟨fun h => absurd h hPe, ?_, ?_, master.1, ?_, ?_, ?_, ?_⟩
    · intro h
      have hm := master.2.2.2
      rw [h] at hm
      dsimp only at hm
    · intro h
      have hm := master.2.2.2
      rw [h] at hm
      dsimp only at hm
    · intro j hj1 hjl
      cases hma : min maxRetries P.length with
      | zero =>
        have := master.1
        rw [hma] at this
        omega
      | succ m =>
        rw [hma] at heq
        unfold routeGo at heq
        rcases hsel : selectRpc st P 0 rand now with ⟨osel, st1⟩
        rw [hsel] at heq
        cases osel with
        | none =>
          have hs := selectRpc_isSome st P 0 rand now hPe
          rw [hsel] at hs
          simp at hs
        | some r =>
          dsimp only at heq
          dsimp only
          by_cases hopen : ((isCircuitBreakerOpen st1 r.url now).1 = true)
          · rw [if_pos hopen] at heq
            rcases hY : routeGo P outcomes rand now retryDelay
                (m + 1) 1 m none
                (isCircuitBreakerOpen st1 r.url now).2
              with ⟨tl, resE1, stF⟩
            rw [hY] at heq
            dsimp only at heq
            injection heq with h1 h2
            subst h1
            have M := routeGo_spec P outcomes rand now retryDelay
              (m + 1) hPe m 1 none
              (isCircuitBreakerOpen st1 r.url now).2 tl resE1 stF hY
            have MC := M.2.1 le_rfl
            cases j with
            | zero => omega
            | succ j =>
              simp only [List.get?_cons_succ]
              have hjlt : j < tl.length := by
                simp only [List.length_cons] at hjl
                omega
              have hthis := MC.2 j hjlt
              rw [isCircuitBreakerOpen_currentIndex] at hthis
              have he : st1.currentIndex + 1 + j = st1.currentIndex + (j + 1) := by
                omega
              rw [he] at hthis
              exact hthis
          · rw [if_neg hopen] at heq
            cases hout : outcomes 0 with
            | success rt =>
              rw [hout] at heq
              dsimp only at heq
              injection heq with h1 h2
              subst h1
              simp only [List.length_cons, List.length_nil] at hjl
              omega
            | failure msg ort =>
              rw [hout] at heq
              dsimp only at heq
              rcases hY : routeGo P outcomes rand now retryDelay
                  (m + 1) 1 m (some msg)
                  (updateCircuitBreaker
                    (updateRpcMetrics (isCircuitBreakerOpen st1 r.url now).2 r.url
                      false (ort.getD 0) now) r.url false now)
                with ⟨tl, resE1, stF⟩
              rw [hY] at heq
              dsimp only at heq
              injection heq with h1 h2
              subst h1
              have M := routeGo_spec P outcomes rand now retryDelay
                (m + 1) hPe m 1 (some msg)
                (updateCircuitBreaker
                  (updateRpcMetrics (isCircuitBreakerOpen st1 r.url now).2 r.url
                    false (ort.getD 0) now) r.url false now) tl resE1 stF hY
              have MC := M.2.1 le_rfl
              cases j with
              | zero => omega
              | succ j =>
                simp only [List.get?_cons_succ]
                have hjlt : j < tl.length := by
                  simp only [List.length_cons] at hjl
                  omega
                have hthis := MC.2 j hjlt
                rw [updateCircuitBreaker_currentIndex,
                  updateRpcMetrics_currentIndex,
                  isCircuitBreakerOpen_currentIndex] at hthis
                have he : st1.currentIndex + 1 + j = st1.currentIndex + (j + 1) := by
                  omega
                rw [he] at hthis
                exact hthis
    · intro j u msg s hs
      have hm := master.2.2.1 j u msg s hs
      simp only [Nat.zero_add] at hm
      exact hm
    · intro s h
      have hm := master.2.2.2
      rw [h] at hm
      dsimp only at hm
      exact hm
    · intro a last h
      have hm := master.2.2.2
      rw [h] at hm
      dsimp only at hm
      refine ⟨hm.1, hm.2.1, ?_⟩
      have := hm.2.2
      omega

/-- Witness for C3: with both breakers open, a two-endpoint pool is
walked by the retry cursor: iteration 1 addresses the endpoint at index
(cursor + 1) mod 2 of the pool. -/
theorem c3_route_retry_witness :
    ((routeRequest c3wSt c3Pool 3 c3Out 0 0 1000).1.get? 1).map itUrl =
      (c3Pool.get? (((selectRpc c3wSt c3Pool 0 0 0).2.currentIndex + 1) %
        c3Pool.length)).map (·.url) :=
  (c3_route_retry c3wSt c3Pool 3 c3Out 0 0 1000
    (routeRequest c3wSt c3Pool 3 c3Out 0 0 1000).1
    (routeRequest c3wSt c3Pool 3 c3Out 0 0 1000).2.1
    (routeRequest c3wSt c3Pool 3 c3Out 0 0 1000).2.2 rfl).2.2.2.2.1 1
    (by decide) (by decide)

end NamadaProxy
